import Mathlib

/-!
Verification of the single-disk plot engine
(`crates/subspace-farmer/src/single_disk_plot.rs`).

Shallow embedding conventions:
* machine integers (`u64`, `u16`, `usize`) are `Nat`, with an explicit
  `% 2 ^ 64` wherever the source relies on wrapping arithmetic (the build
  asserts a 64-bit platform, so `usize` has the width of `u64`);
* `sector_size` from `subspace-farmer-components` is kept abstract as a
  function parameter `sectorSize : Nat → Nat`, since only the argument it
  is applied to matters for the properties below;
* byte strings that are only ever compared for equality (genesis hash,
  public key) are represented by `Nat` identifiers;
* fallible code returns `Except`.
-/

/-- Modulus of `u64` arithmetic. -/
def U64_MOD : Nat := 2 ^ 64

/-- `u64::from(u32::MAX)`, the factor applied to the creation timestamp
(line 600 of `single_disk_plot.rs`). -/
def u32MaxAsU64 : Nat := 2 ^ 32 - 1

/-- `SingleDiskPlotInfo::V0`, the JSON descriptor of a plot
(lines 115-137).  `genesisHash` and `publicKey` stand for the 32-byte
values, which the engine only ever compares for equality. -/
structure SingleDiskPlotInfo where
  id : Nat
  genesisHash : Nat
  publicKey : Nat
  firstSectorIndex : Nat
  piecesInSector : Nat
  allocatedSpace : Nat
  deriving DecidableEq, Repr

/-- The `SingleDiskPlotError` variants produced by the descriptor
validation / creation step of `SingleDiskPlot::new` (lines 302-382).
`cantResize` carries the stored and the requested space, `wrongChain` the
stored and the current genesis hash, `identityMismatch` the stored and the
derived public key, `invalidPiecesInSector` the supported maximum and the
stored value, `insufficientAllocatedSpace` the minimal size and the
requested space, exactly as the corresponding Rust fields do. -/
inductive SingleDiskPlotError where
  | cantResize (id oldSpace newSpace : Nat)
  | wrongChain (id correctChain wrongChainHash : Nat)
  | identityMismatch (id correctPublicKey wrongPublicKey : Nat)
  | invalidPiecesInSector (id maxSupported initializedWith : Nat)
  | insufficientAllocatedSpace (minSize allocatedSpace : Nat)
  deriving DecidableEq, Repr

/-- The descriptor validation / creation step of `SingleDiskPlot::new`
(lines 535-615).  `stored` is the result of
`SingleDiskPlotInfo::load_from`; `secs` is
`SystemTime::UNIX_EPOCH.elapsed().as_secs()` (a `u64`); `newId` is the
freshly generated ULID.  On a fresh directory the first sector index is
`secs.wrapping_mul(u64::from(u32::MAX))` (lines 596-600) and the
descriptor records `max_pieces_in_sector` as its `pieces_in_sector`
(line 607). -/
def resolvePlotInfo (sectorSize : Nat → Nat) (stored : Option SingleDiskPlotInfo)
    (allocatedSpace maxPiecesInSector genesisHash publicKey newId secs : Nat) :
    Except SingleDiskPlotError SingleDiskPlotInfo :=
  match stored with
  | some info =>
      if allocatedSpace ≠ info.allocatedSpace then
        .error (.cantResize info.id info.allocatedSpace allocatedSpace)
      else if genesisHash ≠ info.genesisHash then
        .error (.wrongChain info.id info.genesisHash genesisHash)
      else if publicKey ≠ info.publicKey then
        .error (.identityMismatch info.id info.publicKey publicKey)
      else if maxPiecesInSector < info.piecesInSector then
        .error (.invalidPiecesInSector info.id maxPiecesInSector info.piecesInSector)
      else
        .ok info
  | none =>
      let ss := sectorSize maxPiecesInSector
      let targetSectorCount := allocatedSpace / ss
      if targetSectorCount = 0 then
        .error (.insufficientAllocatedSpace ss allocatedSpace)
      else
        .ok { id := newId
              genesisHash := genesisHash
              publicKey := publicKey
              firstSectorIndex := secs * u32MaxAsU64 % U64_MOD
              piecesInSector := maxPiecesInSector
              allocatedSpace := allocatedSpace }

/-- The quantities derived right after the descriptor is resolved
(lines 617-622): `pieces_in_sector` is read from the descriptor, while
`sector_size` and hence `target_sector_count` are computed from
`max_pieces_in_sector` supplied by the caller. -/
structure OpenDerived where
  piecesInSector : Nat
  sectorSizeBytes : Nat
  targetSectorCount : Nat
  firstSectorIndex : Nat
  deriving DecidableEq, Repr

/-- Translation of lines 617-622 of `SingleDiskPlot::new`. -/
def openDerived (sectorSize : Nat → Nat) (maxPiecesInSector : Nat)
    (info : SingleDiskPlotInfo) : OpenDerived :=
  { piecesInSector := info.piecesInSector
    sectorSizeBytes := sectorSize maxPiecesInSector
    targetSectorCount := info.allocatedSpace / sectorSize maxPiecesInSector
    firstSectorIndex := info.firstSectorIndex }

/-- Byte offset in `plot.bin` of the writable window mapped for plotting
sector `sectorOffset` (lines 756-761: `(sector_offset * sector_size) as u64`,
a `usize` product on a 64-bit platform). -/
def sectorWindowStart (d : OpenDerived) (sectorOffset : Nat) : Nat :=
  sectorOffset * d.sectorSizeBytes % U64_MOD

/-- Global index of the sector at offset `sectorOffset`
(line 753: `sector_offset as u64 + first_sector_index`). -/
def sectorGlobalIndex (d : OpenDerived) (sectorOffset : Nat) : Nat :=
  (sectorOffset + d.firstSectorIndex) % U64_MOD

/-- Outcome of one request in the reading worker (lines 1021-1068):
`dropped` means the request was abandoned without sending a value, so the
response channel closes when `response_sender` is dropped; `served k`
means the metadata at local offset `k` was found and `read_piece` ran and
its result was sent. -/
inductive ReadResult where
  | dropped
  | served (sectorOffset : Nat)
  deriving DecidableEq, Repr

/-- Translation of the per-request body of the reading worker
(lines 1028-1067).  `canceled` is `response_sender.is_canceled()`;
`sectorsMetadataLen` is the length of the in-memory metadata vector.
`sector_index - first_sector_index` is a `u64` subtraction that wraps on
underflow (modulo `2 ^ 64`), then is cast to `usize` on a 64-bit
platform and used to index `sectors_metadata.get`. -/
def handleReadRequest (canceled : Bool) (firstSectorIndex sectorsMetadataLen
    sectorIndex : Nat) : ReadResult :=
  if canceled then .dropped
  else if (sectorIndex + U64_MOD - firstSectorIndex % U64_MOD) % U64_MOD <
      sectorsMetadataLen then
    .served ((sectorIndex + U64_MOD - firstSectorIndex % U64_MOD) % U64_MOD)
  else
    .dropped

/-- State of the descriptor file `single_disk_plot.json` as seen by
`SingleDiskPlotInfo::load_from`: absent (`Ok(None)`), present and
readable (`Ok(Some(_))`), or present but undecodable (`Err(_)`). -/
inductive DescriptorState where
  | missing
  | valid
  | corrupt
  deriving DecidableEq, Repr

/-- Which of the four files of a plot directory exist on disk. -/
structure PlotDirectory where
  descriptor : DescriptorState
  plotFile : Bool
  metadataFile : Bool
  identityFile : Bool
  deriving DecidableEq, Repr

/-- The files `SingleDiskPlot::wipe` touches, in the order the source
names them. -/
inductive PlotFileName where
  | plotBin
  | metadataBin
  | identityBin
  | descriptorJson
  deriving DecidableEq, Repr

/-- The only `io::ErrorKind` the wipe model needs: `NotFound`, produced
both by the explicit descriptor check and by `fs::remove_file` on a
missing file. -/
inductive IoErrorKind where
  | notFound
  deriving DecidableEq, Repr

/-- `fs::remove_file`: fails with `NotFound` when the file is absent. -/
def removeFile (present : Bool) : Except IoErrorKind Unit :=
  if present then .ok () else .error .notFound

instance : DecidableEq (Except IoErrorKind Unit) := fun a b =>
  match a, b with
  | .ok (), .ok () => isTrue rfl
  | .error .notFound, .error .notFound => isTrue rfl
  | .ok (), .error _ => isFalse fun h => Except.noConfusion h
  | .error _, .ok () => isFalse fun h => Except.noConfusion h

/-- Result of `SingleDiskPlot::wipe`: the files actually removed, in
order, and the returned `io::Result`. -/
structure WipeOutcome where
  removed : List PlotFileName
  result : Except IoErrorKind Unit
  deriving DecidableEq, Repr

/-- Translation of `SingleDiskPlot::wipe` (lines 1203-1246).  A missing
descriptor returns `NotFound` before touching anything; an undecodable
descriptor only logs a warning and proceeds.  Each `fs::remove_file` call
is followed by `?`, so the first failure aborts the wipe with that error,
leaving the earlier deletions in place. -/
def wipe (d : PlotDirectory) : WipeOutcome :=
  match d.descriptor with
  | .missing => { removed := [], result := .error .notFound }
  | _ =>
    match removeFile d.plotFile with
    | .error e => { removed := [], result := .error e }
    | .ok _ =>
      match removeFile d.metadataFile with
      | .error e => { removed := [.plotBin], result := .error e }
      | .ok _ =>
        match removeFile d.identityFile with
        | .error e => { removed := [.plotBin, .metadataBin], result := .error e }
        | .ok _ =>
          { removed := [.plotBin, .metadataBin, .identityBin, .descriptorJson]
            result := .ok () }

/-- Observable actions of the initial plotting loop, in source order
(lines 752-824).  `writeHeaderBytes c` is the in-place rewrite of the
metadata header after `metadata_header.sector_count += 1` set the count
to `c` (lines 810-812); `pushMemMetadata k` is the push of the record of
sector `k` onto the shared in-memory vector (lines 813-815). -/
inductive PlotEvent where
  | mapSector (sectorOffset : Nat)
  | mapMetadata (sectorOffset : Nat)
  | acquirePermit
  | getFarmerInfo
  | plotSector (sectorOffset : Nat)
  | flushSector (sectorOffset : Nat)
  | flushMetadata (sectorOffset : Nat)
  | writeHeaderBytes (sectorCount : Nat)
  | pushMemMetadata (sectorOffset : Nat)
  | emitSectorPlotted (sectorOffset : Nat)
  deriving DecidableEq, Repr

/-- One successful iteration of the plotting loop at sector offset `k`,
as the sequence of its actions (lines 752-824).  The loop starts at
offset `metadata_header.sector_count` and increments the count exactly
once per iteration, so when the iteration for offset `k` runs the header
count equals `k` and the rewrite stores `k + 1`. -/
def plottingIterationEvents (k : Nat) : List PlotEvent :=
  [.mapSector k, .mapMetadata k, .acquirePermit, .getFarmerInfo,
   .plotSector k, .flushSector k, .flushMetadata k,
   .writeHeaderBytes (k + 1), .pushMemMetadata k, .emitSectorPlotted k]

/-- The action trace of `n` iterations of the plotting loop starting at
sector offset `start` (the loop runs offsets
`metadata_header.sector_count .. target_sector_count`, lines 748-752). -/
def plottingEvents (start n : Nat) : List PlotEvent :=
  match n with
  | 0 => []
  | Nat.succ m => plottingIterationEvents start ++ plottingEvents (start + 1) m

/-- The successive values stored into the on-disk metadata header by a
trace, in order. -/
def headerWrites : List PlotEvent → List Nat
  | [] => []
  | .writeHeaderBytes c :: rest => c :: headerWrites rest
  | _ :: rest => headerWrites rest

/-- `SOLUTIONS_LIMIT` (line 63). -/
def SOLUTIONS_LIMIT : Nat := 1

/-- One element yielded by the candidate iterator of a sector
(lines 933-946): either a proved solution, or a proving failure that is
logged and skipped.  Solutions are represented by `Nat` identifiers. -/
inductive CandidateOutcome where
  | proved (solution : Nat)
  | failed
  deriving DecidableEq, Repr

/-- What one sector contributes in the farming loop (lines 911-968):
`none` when `audit_sector` found no candidates (line 929), otherwise the
result of `solution_candidates.into_iter(..)` (line 933), whose failure
aborts the whole slot through `?`. -/
abbrev SectorOutcome := Option (Except Unit (List CandidateOutcome))

/-- The inner candidate loop of the farming worker (lines 933-956):
push each proved solution, skip failures, and break out as soon as
`solutions.len() >= SOLUTIONS_LIMIT`. -/
def proveCandidates (solutions : List Nat) : List CandidateOutcome → List Nat
  | [] => solutions
  | .failed :: rest => proveCandidates solutions rest
  | .proved s :: rest =>
      if SOLUTIONS_LIMIT ≤ (solutions ++ [s]).length then solutions ++ [s]
      else proveCandidates (solutions ++ [s]) rest

/-- The outer sector loop of the farming worker (lines 911-968): after
each audited sector, break once `solutions.len() >= SOLUTIONS_LIMIT`
(lines 958-960) and also once `solutions` is non-empty (lines 965-967);
a failed `into_iter` aborts the slot through `?`. -/
def scanSectors (solutions : List Nat) : List SectorOutcome → Except Unit (List Nat)
  | [] => .ok solutions
  | none :: rest => scanSectors solutions rest
  | some (.error e) :: _ => .error e
  | some (.ok cs) :: rest =>
      if SOLUTIONS_LIMIT ≤ (proveCandidates solutions cs).length then
        .ok (proveCandidates solutions cs)
      else if proveCandidates solutions cs ≠ [] then
        .ok (proveCandidates solutions cs)
      else
        scanSectors (proveCandidates solutions cs) rest

/-- `SolutionResponse` (`subspace_rpc_primitives`), as produced at
lines 970-973. -/
structure SolutionResponse where
  slotNumber : Nat
  solutions : List Nat
  deriving DecidableEq, Repr

/-- The externally visible effects of one slot of the farming worker:
the payloads passed to `handlers.solution.call_simple` (line 974) and to
`node_client.submit_solution_response` (lines 975-980), in order. -/
structure SlotEffects where
  events : List SolutionResponse
  submitted : List SolutionResponse
  deriving DecidableEq, Repr

/-- One slot of the farming worker (lines 902-981): scan the plotted
sectors, then build `SolutionResponse { slot_number, solutions }`, emit
the local `solution` event and submit the response to the node.  `none`
models the fatal-error path, on which the loop is aborted by `?` before
any response is built. -/
def farmSlot (slotNumber : Nat) (sectors : List SectorOutcome) : Option SlotEffects :=
  match scanSectors [] sectors with
  | .error _ => none
  | .ok solutions =>
      let response : SolutionResponse := { slotNumber := slotNumber, solutions := solutions }
      some { events := [response], submitted := [response] }

/-- The buffer argument of the slot forwarding channel:
`mpsc::channel::<SlotInfo>(0)` (lines 844-845). -/
def SLOT_CHANNEL_BUFFER : Nat := 0

/-- Capacity of a `futures::channel::mpsc` bounded channel: per its
documentation, `buffer` plus the number of `Sender` handles.  The slot
forwarder task owns the single sender (lines 858-868), so the channel
can hold one un-consumed `SlotInfo`. -/
def slotChannelCapacity (senders : Nat) : Nat := SLOT_CHANNEL_BUFFER + senders

/-- External events of the slot forwarding system: a `SlotInfo` with the
given slot number arrives at the forwarder (lines 858-868), the farming
worker takes the next message out of the channel (line 902), or it
finishes the slot it was processing and submits the response
(lines 903-980).  Slots are identified by their slot number. -/
inductive FarmEv where
  | arrive (slot : Nat)
  | takeNext
  | finish
  deriving DecidableEq, Repr

/-- State of the slot forwarding system: the slots queued in the channel
buffer (FIFO), the slot the farming worker is currently processing, the
slots dropped by a failed `try_send` (line 865), the slot numbers of the
submitted `SolutionResponse`s, and (ghost, for bookkeeping) every slot
that has arrived so far. -/
structure FarmChanState where
  queued : List Nat
  processing : Option Nat
  skipped : List Nat
  submitted : List Nat
  arrived : List Nat
  deriving DecidableEq, Repr

/-- One step of the slot forwarding system.  An arrival runs
`try_send` (line 865): it succeeds exactly when the channel buffer is
below capacity, otherwise the slot is dropped with a debug log
(line 866).  `takeNext` is `slot_info_forwarder_receiver.next().await`
resolving (line 902), which removes the message from the buffer before
the worker processes it.  `finish` completes the per-slot body, whose
last action is the submission (lines 970-980). -/
def farmStep (s : FarmChanState) : FarmEv → FarmChanState
  | .arrive slot =>
      if s.queued.length < slotChannelCapacity 1 then
        { s with queued := s.queued ++ [slot], arrived := s.arrived ++ [slot] }
      else
        { s with skipped := s.skipped ++ [slot], arrived := s.arrived ++ [slot] }
  | .takeNext =>
      match s.processing, s.queued with
      | none, slot :: rest => { s with queued := rest, processing := some slot }
      | _, _ => s
  | .finish =>
      match s.processing with
      | some slot => { s with processing := none, submitted := s.submitted ++ [slot] }
      | none => s

/-- Run the slot forwarding system over a list of external events. -/
def runFarm (s : FarmChanState) : List FarmEv → FarmChanState
  | [] => s
  | e :: es => runFarm (farmStep s e) es

/-- The slot numbers that arrive in an event list, in order. -/
def arrivalsOf : List FarmEv → List Nat
  | [] => []
  | .arrive slot :: es => slot :: arrivalsOf es
  | _ :: es => arrivalsOf es

/-- The initial state: empty channel, idle worker, nothing seen. -/
def initialFarmState : FarmChanState :=
  { queued := [], processing := none, skipped := [], submitted := [], arrived := [] }

/-- Claim C2: when opening a plot whose descriptor already exists, each
mismatch produces its distinct fatal error and the plot is not started:
a requested `allocated_space` different from the stored one fails with
`CantResize`, a different `genesis_hash` fails with `WrongChain`, a
different derived `public_key` fails with `IdentityMismatch`, and a
stored `pieces_in_sector` greater than `max_pieces_in_sector` fails with
`InvalidPiecesInSector`. -/
theorem c2_descriptor_mismatch_errors (sectorSize : Nat → Nat)
    (info : SingleDiskPlotInfo)
    (allocatedSpace maxPiecesInSector genesisHash publicKey newId secs : Nat) :
    (allocatedSpace ≠ info.allocatedSpace →
      resolvePlotInfo sectorSize (some info) allocatedSpace maxPiecesInSector
          genesisHash publicKey newId secs =
        .error (.cantResize info.id info.allocatedSpace allocatedSpace)) ∧
    (allocatedSpace = info.allocatedSpace → genesisHash ≠ info.genesisHash →
      resolvePlotInfo sectorSize (some info) allocatedSpace maxPiecesInSector
          genesisHash publicKey newId secs =
        .error (.wrongChain info.id info.genesisHash genesisHash)) ∧
    (allocatedSpace = info.allocatedSpace → genesisHash = info.genesisHash →
      publicKey ≠ info.publicKey →
      resolvePlotInfo sectorSize (some info) allocatedSpace maxPiecesInSector
          genesisHash publicKey newId secs =
        .error (.identityMismatch info.id info.publicKey publicKey)) ∧
    (allocatedSpace = info.allocatedSpace → genesisHash = info.genesisHash →
      publicKey = info.publicKey → maxPiecesInSector < info.piecesInSector →
      resolvePlotInfo sectorSize (some info) allocatedSpace maxPiecesInSector
          genesisHash publicKey newId secs =
        .error (.invalidPiecesInSector info.id maxPiecesInSector
          info.piecesInSector)) := by
  refine ⟨fun h1 => ?_, fun h1 h2 => ?_, fun h1 h2 h3 => ?_, fun h1 h2 h3 h4 => ?_⟩
  · simp only [resolvePlotInfo]
    rw [if_pos h1]
  · simp only [resolvePlotInfo]
    rw [if_neg (not_not_intro h1), if_pos h2]
  · simp only [resolvePlotInfo]
    rw [if_neg (not_not_intro h1), if_neg (not_not_intro h2), if_pos h3]
  · simp only [resolvePlotInfo]
    rw [if_neg (not_not_intro h1), if_neg (not_not_intro h2),
      if_neg (not_not_intro h3), if_pos h4]

/-- Witness for C2 at a concrete descriptor. -/
theorem c2_descriptor_mismatch_errors_witness :
    resolvePlotInfo (fun _ => 1)
        (some { id := 1, genesisHash := 10, publicKey := 20, firstSectorIndex := 0,
                piecesInSector := 100, allocatedSpace := 512 }) 513 100 10 20 0 0 =
      .error (.cantResize 1 512 513) ∧
    resolvePlotInfo (fun _ => 1)
        (some { id := 1, genesisHash := 10, publicKey := 20, firstSectorIndex := 0,
                piecesInSector := 100, allocatedSpace := 512 }) 512 100 11 20 0 0 =
      .error (.wrongChain 1 10 11) ∧
    resolvePlotInfo (fun _ => 1)
        (some { id := 1, genesisHash := 10, publicKey := 20, firstSectorIndex := 0,
                piecesInSector := 100, allocatedSpace := 512 }) 512 100 10 21 0 0 =
      .error (.identityMismatch 1 20 21) ∧
    resolvePlotInfo (fun _ => 1)
        (some { id := 1, genesisHash := 10, publicKey := 20, firstSectorIndex := 0,
                piecesInSector := 100, allocatedSpace := 512 }) 512 99 10 20 0 0 =
      .error (.invalidPiecesInSector 1 99 100) :=
  ⟨(c2_descriptor_mismatch_errors (fun _ => 1) _ 513 100 10 20 0 0).1 (by decide),
   (c2_descriptor_mismatch_errors (fun _ => 1) _ 512 100 11 20 0 0).2.1 rfl (by decide),
   (c2_descriptor_mismatch_errors (fun _ => 1) _ 512 100 10 21 0 0).2.2.1 rfl rfl (by decide),
   (c2_descriptor_mismatch_errors (fun _ => 1) _ 512 99 10 20 0 0).2.2.2 rfl rfl rfl
     (by decide)⟩

/-- Claim C9 counterexample: at creation the code multiplies the seconds
by `u32::MAX = 2 ^ 32 - 1`, not by `2 ^ 32`.  With `secs = 1` the stored
`first_sector_index` is `4294967295`, while the scaling by `2 ^ 32`
stated in the claim would give `4294967296`. -/
theorem c9_counterexample :
    ((resolvePlotInfo (fun _ => 1) none 5 8 1 2 7 1).toOption.map
        fun info => info.firstSectorIndex) = some 4294967295 ∧
    (4294967295 : Nat) ≠ 1 * 2 ^ 32 % 2 ^ 64 := by
  exact ⟨by decide, by decide⟩

/-- Claim C9 (amended): at plot creation, `first_sector_index` equals the
whole seconds since the Unix epoch multiplied by `u32::MAX = 2 ^ 32 - 1`,
with the multiplication taken modulo `2 ^ 64`. -/
theorem c9_first_sector_index_scaling (sectorSize : Nat → Nat)
    (allocatedSpace maxPiecesInSector genesisHash publicKey newId secs : Nat)
    (h : allocatedSpace / sectorSize maxPiecesInSector ≠ 0) :
    resolvePlotInfo sectorSize none allocatedSpace maxPiecesInSector
        genesisHash publicKey newId secs =
      .ok { id := newId
            genesisHash := genesisHash
            publicKey := publicKey
            firstSectorIndex := secs * (2 ^ 32 - 1) % 2 ^ 64
            piecesInSector := maxPiecesInSector
            allocatedSpace := allocatedSpace } := by
  simp only [resolvePlotInfo, u32MaxAsU64, U64_MOD]
  rw [if_neg h]

/-- Witness for the amended C9 at a concrete creation. -/
theorem c9_first_sector_index_scaling_witness :
    resolvePlotInfo (fun _ => 2) none 10 8 1 2 7 9 =
      .ok { id := 7
            genesisHash := 1
            publicKey := 2
            firstSectorIndex := 9 * (2 ^ 32 - 1) % 2 ^ 64
            piecesInSector := 8
            allocatedSpace := 10 } :=
  c9_first_sector_index_scaling (fun _ => 2) 10 8 1 2 7 9 (by decide)

/-- A stored descriptor created with `pieces_in_sector = 1000`, as it
looks when the plot is reopened later with a larger
`max_pieces_in_sector` (the open path of lines 561-578 accepts this and
only logs that the plot keeps its smaller `pieces_in_sector` until it is
re-created). -/
def reopenedInfo : SingleDiskPlotInfo :=
  { id := 7
    genesisHash := 1
    publicKey := 2
    firstSectorIndex := 0
    piecesInSector := 1000
    allocatedSpace := 1000000000 }

/-- Claim C1: on this reopen path the code derives the sector size from
`max_pieces_in_sector` (line 618), not from the `pieces_in_sector`
stored in the descriptor as the claim states, so the sector windows and
the target sector count disagree with `sector_size(pieces_in_sector)`
whenever the two arguments give different sizes.  Stated for any
`sector_size` function that distinguishes 1000 from 1240 pieces and whose
values fit in `u64`. -/
theorem c1_sector_size_uses_max (sectorSize : Nat → Nat)
    (hne : sectorSize reopenedInfo.piecesInSector ≠ sectorSize 1240)
    (hs : sectorSize 1240 < U64_MOD)
    (hs2 : sectorSize reopenedInfo.piecesInSector < U64_MOD) :
    resolvePlotInfo sectorSize (some reopenedInfo) 1000000000 1240
        reopenedInfo.genesisHash reopenedInfo.publicKey 0 0 = .ok reopenedInfo ∧
    openDerived sectorSize 1240 reopenedInfo =
      { piecesInSector := 1000
        sectorSizeBytes := sectorSize 1240
        targetSectorCount := 1000000000 / sectorSize 1240
        firstSectorIndex := 0 } ∧
    (openDerived sectorSize 1240 reopenedInfo).sectorSizeBytes ≠
      sectorSize reopenedInfo.piecesInSector ∧
    sectorWindowStart (openDerived sectorSize 1240 reopenedInfo) 1 ≠
      1 * sectorSize reopenedInfo.piecesInSector % U64_MOD := by
  refine ⟨rfl, rfl, ?_, ?_⟩
  · simpa [openDerived, reopenedInfo] using
      fun h => hne (by simpa [reopenedInfo] using h.symm)
  · simp only [sectorWindowStart, openDerived, reopenedInfo, one_mul,
      Nat.mod_eq_of_lt hs, Nat.mod_eq_of_lt (by simpa [reopenedInfo] using hs2)]
    exact fun h => hne (by simpa [reopenedInfo] using h.symm)

/-- Witness for C1 at the identity sector-size function. -/
theorem c1_sector_size_uses_max_witness :
    (openDerived (fun n => n) 1240 reopenedInfo).sectorSizeBytes ≠
      reopenedInfo.piecesInSector ∧
    sectorWindowStart (openDerived (fun n => n) 1240 reopenedInfo) 1 ≠
      1 * reopenedInfo.piecesInSector % U64_MOD :=
  ⟨(c1_sector_size_uses_max (fun n => n) (by decide) (by decide) (by decide)).2.2.1,
   (c1_sector_size_uses_max (fun n => n) (by decide) (by decide) (by decide)).2.2.2⟩

/-- Claim C7 counterexample: with `first_sector_index = 100` and one
plotted sector, the request for sector index `99` is below
`first_sector_index + sector_count = 101`, yet the reading worker drops
it (the wrapped local offset is `2 ^ 64 - 1`), against the claim that
all indexes below `first_sector_index + sector_count` are served. -/
theorem c7_counterexample :
    99 < 100 + 1 ∧ handleReadRequest false 100 1 99 = .dropped := by
  exact ⟨by decide, by decide⟩

/-- Claim C7 (amended): a piece-read request with
`sector_index ≥ first_sector_index + sector_count` is dropped without a
value being sent, and a request with
`first_sector_index ≤ sector_index < first_sector_index + sector_count`
is served from the metadata at local offset
`sector_index - first_sector_index`; indexes below `first_sector_index`
are not served (see C10). -/
theorem c7_read_request_ranges (firstSectorIndex len sectorIndex : Nat)
    (hf : firstSectorIndex < U64_MOD) (hi : sectorIndex < U64_MOD) :
    (firstSectorIndex + len ≤ sectorIndex →
      handleReadRequest false firstSectorIndex len sectorIndex = .dropped) ∧
    (firstSectorIndex ≤ sectorIndex → sectorIndex < firstSectorIndex + len →
      handleReadRequest false firstSectorIndex len sectorIndex =
        .served (sectorIndex - firstSectorIndex)) := by
  have hkey : firstSectorIndex ≤ sectorIndex →
      (sectorIndex + U64_MOD - firstSectorIndex % U64_MOD) % U64_MOD =
        sectorIndex - firstSectorIndex := by
    intro hle
    rw [Nat.mod_eq_of_lt hf]
    have he : sectorIndex + U64_MOD - firstSectorIndex =
        sectorIndex - firstSectorIndex + U64_MOD := by omega
    rw [he, Nat.add_mod_right, Nat.mod_eq_of_lt (by omega)]
  constructor
  · intro h
    have hle : firstSectorIndex ≤ sectorIndex := le_trans (Nat.le_add_right _ _) h
    simp only [handleReadRequest, Bool.false_eq_true, if_false, hkey hle]
    rw [if_neg (by omega)]
  · intro hle hlt
    simp only [handleReadRequest, Bool.false_eq_true, if_false, hkey hle]
    rw [if_pos (by omega)]

/-- Witness for the amended C7: one dropped and one served request. -/
theorem c7_read_request_ranges_witness :
    handleReadRequest false 10 3 13 = .dropped ∧
    handleReadRequest false 10 3 11 = .served 1 :=
  ⟨(c7_read_request_ranges 10 3 13 (by decide) (by decide)).1 (by decide),
   (c7_read_request_ranges 10 3 11 (by decide) (by decide)).2 (by decide) (by decide)⟩

/-- Claim C10 counterexample: the wrapped offset of a request below
`first_sector_index` does not always exceed the metadata vector length.
With `first_sector_index = 2 ^ 64 - 3`, four plotted sectors and a
request for sector index `0`, the wrapping subtraction yields offset `3`
and the request is served (from the wrong sector) instead of dropped. -/
theorem c10_counterexample :
    0 < U64_MOD - 3 ∧ handleReadRequest false (U64_MOD - 3) 4 0 = .served 3 := by
  exact ⟨by decide, by decide⟩

/-- Claim C10 (amended): for a request with
`sector_index < first_sector_index`, the wrapping subtraction yields a
local offset of at least `2 ^ 64 - first_sector_index`; whenever
`first_sector_index + sector_count ≤ 2 ^ 64` (true for any realizable
metadata vector), that offset is out of range of the vector and the
request is dropped with no value sent, as for a not-yet-plotted
sector. -/
theorem c10_wrapped_below_first_dropped (firstSectorIndex len sectorIndex : Nat)
    (hf : firstSectorIndex < U64_MOD) (hi : sectorIndex < firstSectorIndex)
    (hlen : firstSectorIndex + len ≤ U64_MOD) :
    U64_MOD - firstSectorIndex ≤
      (sectorIndex + U64_MOD - firstSectorIndex % U64_MOD) % U64_MOD ∧
    handleReadRequest false firstSectorIndex len sectorIndex = .dropped := by
  have hkey : (sectorIndex + U64_MOD - firstSectorIndex % U64_MOD) % U64_MOD =
      sectorIndex + U64_MOD - firstSectorIndex := by
    rw [Nat.mod_eq_of_lt hf]
    exact Nat.mod_eq_of_lt (by omega)
  refine ⟨by omega, ?_⟩
  simp only [handleReadRequest, Bool.false_eq_true, if_false, hkey]
  rw [if_neg (by omega)]

/-- Witness for the amended C10 at a concrete request. -/
theorem c10_wrapped_below_first_dropped_witness :
    U64_MOD - 100 ≤ (7 + U64_MOD - 100 % U64_MOD) % U64_MOD ∧
    handleReadRequest false 100 5 7 = .dropped :=
  c10_wrapped_below_first_dropped 100 5 7 (by decide) (by decide) (by decide)

/-- Claim C8 counterexample: on a directory with a valid descriptor but
no `plot.bin`, `wipe` propagates the `NotFound` error of
`fs::remove_file` and removes nothing, instead of silently tolerating
the absence of the data file as the claim states. -/
theorem c8_counterexample :
    wipe { descriptor := .valid, plotFile := false, metadataFile := true,
           identityFile := true } =
      { removed := [], result := .error .notFound } := by
  decide

/-- Claim C8 (amended): `wipe` deletes `plot.bin`, `metadata.bin`, the
identity file and the descriptor, in that order; if the descriptor is
absent it returns a `NotFound` error without touching any files; a
present but undecodable descriptor is tolerated with a warning; but the
absence of the data, metadata or identity file after the descriptor
check is not tolerated: the first missing one aborts the wipe with its
`NotFound` error, with the files before it already deleted. -/
theorem c8_wipe_behaviour (d : PlotDirectory) :
    (d.descriptor = .missing →
      wipe d = { removed := [], result := .error .notFound }) ∧
    (d.descriptor ≠ .missing → d.plotFile = true → d.metadataFile = true →
      d.identityFile = true →
      wipe d = { removed := [.plotBin, .metadataBin, .identityBin, .descriptorJson],
                 result := .ok () }) ∧
    (d.descriptor ≠ .missing → d.plotFile = false →
      wipe d = { removed := [], result := .error .notFound }) ∧
    (d.descriptor ≠ .missing → d.plotFile = true → d.metadataFile = false →
      wipe d = { removed := [.plotBin], result := .error .notFound }) ∧
    (d.descriptor ≠ .missing → d.plotFile = true → d.metadataFile = true →
      d.identityFile = false →
      wipe d = { removed := [.plotBin, .metadataBin], result := .error .notFound }) := by
  rcases d with ⟨desc, p, m, i⟩
  cases desc <;> cases p <;> cases m <;> cases i <;>
    refine ⟨fun h1 => ?_, fun h1 h2 h3 h4 => ?_, fun h1 h2 => ?_,
      fun h1 h2 h3 => ?_, fun h1 h2 h3 h4 => ?_⟩ <;>
    first | rfl | simp_all

/-- Witness for the amended C8 on three concrete directories. -/
theorem c8_wipe_behaviour_witness :
    wipe { descriptor := .missing, plotFile := true, metadataFile := true,
           identityFile := true } =
      { removed := [], result := .error .notFound } ∧
    wipe { descriptor := .corrupt, plotFile := true, metadataFile := true,
           identityFile := true } =
      { removed := [.plotBin, .metadataBin, .identityBin, .descriptorJson],
        result := .ok () } ∧
    wipe { descriptor := .valid, plotFile := true, metadataFile := false,
           identityFile := true } =
      { removed := [.plotBin], result := .error .notFound } :=
  ⟨(c8_wipe_behaviour _).1 rfl,
   (c8_wipe_behaviour _).2.1 (by decide) rfl rfl rfl,
   (c8_wipe_behaviour _).2.2.2.1 (by decide) rfl rfl⟩

/-- Entering the candidate loop with room below the limit never lets the
accumulated solutions exceed `SOLUTIONS_LIMIT`: the loop breaks the
moment the limit is reached. -/
theorem proveCandidates_length_le (cs : List CandidateOutcome) (acc : List Nat)
    (h : acc.length < SOLUTIONS_LIMIT) :
    (proveCandidates acc cs).length ≤ SOLUTIONS_LIMIT := by
  induction cs generalizing acc with
  | nil => exact Nat.le_of_lt h
  | cons c rest ih =>
      cases c with
      | failed => exact ih acc h
      | proved s =>
          simp only [proveCandidates]
          by_cases hl : SOLUTIONS_LIMIT ≤ (acc ++ [s]).length
          · rw [if_pos hl]
            simp only [List.length_append, List.length_singleton]
            omega
          · rw [if_neg hl]
            exact ih (acc ++ [s]) (by omega)

/-- The sector scan, started with an empty accumulator as at line 909,
returns at most `SOLUTIONS_LIMIT` solutions when it completes. -/
theorem scanSectors_ok_length (l : List SectorOutcome) (s : List Nat)
    (h : scanSectors [] l = .ok s) : s.length ≤ SOLUTIONS_LIMIT := by
  induction l with
  | nil =>
      simp only [scanSectors, Except.ok.injEq] at h
      simp [← h, SOLUTIONS_LIMIT]
  | cons sec rest ih =>
      match sec with
      | none => exact ih (by simpa [scanSectors] using h)
      | some (.error e) => simp [scanSectors] at h
      | some (.ok cs) =>
          have hbase : (List.length ([] : List Nat)) < SOLUTIONS_LIMIT := by
            simp [SOLUTIONS_LIMIT]
          simp only [scanSectors] at h
          by_cases h1 : SOLUTIONS_LIMIT ≤ (proveCandidates [] cs).length
          · rw [if_pos h1] at h
            cases h
            exact proveCandidates_length_le cs [] hbase
          · rw [if_neg h1] at h
            by_cases h2 : proveCandidates [] cs ≠ []
            · rw [if_pos h2] at h
              cases h
              exact proveCandidates_length_le cs [] hbase
            · rw [if_neg h2] at h
              rw [not_not.mp h2] at h
              exact ih h

/-- Claim C4: for every slot the farming worker completes, the
`SolutionResponse` it produces contains at most `SOLUTIONS_LIMIT = 1`
solutions, and sector scanning stops as soon as the limit is reached or
any solution has been found in a sector: a sector that contributes a
solution makes the scan ignore all remaining sectors. -/
theorem c4_solutions_limit :
    (∀ (slotNumber : Nat) (sectors : List SectorOutcome) (eff : SlotEffects),
      farmSlot slotNumber sectors = some eff →
      ∀ r ∈ eff.submitted, r.solutions.length ≤ SOLUTIONS_LIMIT) ∧
    (∀ (cs : List CandidateOutcome) (rest : List SectorOutcome),
      proveCandidates [] cs ≠ [] →
      scanSectors [] (some (.ok cs) :: rest) = scanSectors [] [some (.ok cs)]) := by
  constructor
  · intro slotNumber sectors eff h r hr
    cases hscan : scanSectors [] sectors with
    | error e => simp [farmSlot, hscan] at h
    | ok sols =>
        simp only [farmSlot, hscan, Option.some.injEq] at h
        subst h
        simp only [List.mem_singleton] at hr
        subst hr
        exact scanSectors_ok_length sectors sols hscan
  · intro cs rest hne
    simp only [scanSectors]
    by_cases h1 : SOLUTIONS_LIMIT ≤ (proveCandidates [] cs).length
    · rw [if_pos h1, if_pos h1]
    · rw [if_neg h1, if_neg h1, if_pos hne, if_pos hne]

/-- Witness for C4: a completed slot with an empty response obeys the
limit, and a sector with a proved solution ends the scan. -/
theorem c4_solutions_limit_witness :
    ({ slotNumber := 5, solutions := [] } : SolutionResponse).solutions.length ≤
      SOLUTIONS_LIMIT ∧
    scanSectors [] [some (.ok [.proved 3]), none] =
      scanSectors [] [some (.ok [.proved 3])] :=
  ⟨c4_solutions_limit.1 5 [none]
      { events := [{ slotNumber := 5, solutions := [] }],
        submitted := [{ slotNumber := 5, solutions := [] }] } rfl
      { slotNumber := 5, solutions := [] } (by simp),
   c4_solutions_limit.2 [.proved 3] [none] (by decide)⟩

/-- Claim C5: for every slot the farming worker completes, a
`SolutionResponse` carrying that slot number is submitted to the node,
even when the solutions list is empty, and the local `solution` event is
emitted with the same payload as the submitted response. -/
theorem c5_response_every_slot (slotNumber : Nat) (sectors : List SectorOutcome)
    (sols : List Nat) (h : scanSectors [] sectors = .ok sols) :
    farmSlot slotNumber sectors =
      some { events := [{ slotNumber := slotNumber, solutions := sols }],
             submitted := [{ slotNumber := slotNumber, solutions := sols }] } := by
  simp only [farmSlot, h]

/-- Witness for C5: a slot with no plottable candidates still submits an
empty response and fires the event with the same payload. -/
theorem c5_response_every_slot_witness :
    farmSlot 5 [none] =
      some { events := [{ slotNumber := 5, solutions := [] }],
             submitted := [{ slotNumber := 5, solutions := [] }] } :=
  c5_response_every_slot 5 [none] [] rfl

theorem headerWrites_append (a b : List PlotEvent) :
    headerWrites (a ++ b) = headerWrites a ++ headerWrites b := by
  induction a with
  | nil => rfl
  | cons e rest ih => cases e <;> simp [headerWrites, ih]

theorem headerWrites_iteration (k : Nat) :
    headerWrites (plottingIterationEvents k) = [k + 1] := rfl

/-- The values successively stored into the metadata header by the
plotting loop form a non-decreasing chain on top of the initial count. -/
theorem headerWrites_chain (n : Nat) : ∀ a : Nat,
    List.Chain' (· ≤ ·) (a :: headerWrites (plottingEvents a n)) := by
  induction n with
  | zero => intro a; simp [plottingEvents, headerWrites]
  | succ n ih =>
      intro a
      have : headerWrites (plottingEvents a (n + 1)) =
          (a + 1) :: headerWrites (plottingEvents (a + 1) n) := by
        simp [plottingEvents, headerWrites_append, headerWrites_iteration]
      rw [this]
      exact List.chain'_cons.mpr ⟨Nat.le_succ a, ih (a + 1)⟩

/-- If a prefix of `pre ++ rest` contains an element that does not occur
in `pre`, then it contains all of `pre`. -/
theorem mem_take_append_of_mem_once {α : Type} (pre rest : List α) (e x : α)
    (i : Nat) (hx : x ∈ pre) (hnot : e ∉ pre) (he : e ∈ (pre ++ rest).take i) :
    x ∈ (pre ++ rest).take i := by
  rw [List.take_append_eq_append_take] at he ⊢
  rcases List.mem_append.mp he with h | h
  · exact absurd ((List.take_sublist _ _).subset h) hnot
  · have h0 : 0 < i - pre.length := by
      rcases Nat.eq_zero_or_pos (i - pre.length) with hz | hp
      · rw [hz] at h
        simp at h
      · exact hp
    have hpre : pre.take i = pre := List.take_of_length_le (by omega)
    rw [hpre]
    exact List.mem_append_left _ hx

/-- Within one plotting iteration, any execution point that has already
rewritten the header or pushed the in-memory record has also already
flushed both the sector window and the sector metadata window. -/
theorem plottingIteration_flush_first (k m i : Nat)
    (h : PlotEvent.writeHeaderBytes (m + 1) ∈ (plottingIterationEvents k).take i ∨
         PlotEvent.pushMemMetadata m ∈ (plottingIterationEvents k).take i) :
    m = k ∧ PlotEvent.flushSector k ∈ (plottingIterationEvents k).take i ∧
      PlotEvent.flushMetadata k ∈ (plottingIterationEvents k).take i := by
  rcases h with he | he
  · have hmk : m = k := by
      have hmem := (List.take_sublist i (plottingIterationEvents k)).subset he
      simp [plottingIterationEvents] at hmem
      omega
    subst hmk
    refine ⟨rfl, ?_, ?_⟩
    · exact mem_take_append_of_mem_once
        [PlotEvent.mapSector m, PlotEvent.mapMetadata m, PlotEvent.acquirePermit,
         PlotEvent.getFarmerInfo, PlotEvent.plotSector m, PlotEvent.flushSector m,
         PlotEvent.flushMetadata m]
        [PlotEvent.writeHeaderBytes (m + 1), PlotEvent.pushMemMetadata m,
         PlotEvent.emitSectorPlotted m]
        (PlotEvent.writeHeaderBytes (m + 1)) (PlotEvent.flushSector m) i
        (by simp) (by simp) he
    · exact mem_take_append_of_mem_once
        [PlotEvent.mapSector m, PlotEvent.mapMetadata m, PlotEvent.acquirePermit,
         PlotEvent.getFarmerInfo, PlotEvent.plotSector m, PlotEvent.flushSector m,
         PlotEvent.flushMetadata m]
        [PlotEvent.writeHeaderBytes (m + 1), PlotEvent.pushMemMetadata m,
         PlotEvent.emitSectorPlotted m]
        (PlotEvent.writeHeaderBytes (m + 1)) (PlotEvent.flushMetadata m) i
        (by simp) (by simp) he
  · have hmk : m = k := by
      have hmem := (List.take_sublist i (plottingIterationEvents k)).subset he
      simp [plottingIterationEvents] at hmem
      exact hmem
    subst hmk
    refine ⟨rfl, ?_, ?_⟩
    · exact mem_take_append_of_mem_once
        [PlotEvent.mapSector m, PlotEvent.mapMetadata m, PlotEvent.acquirePermit,
         PlotEvent.getFarmerInfo, PlotEvent.plotSector m, PlotEvent.flushSector m,
         PlotEvent.flushMetadata m, PlotEvent.writeHeaderBytes (m + 1)]
        [PlotEvent.pushMemMetadata m, PlotEvent.emitSectorPlotted m]
        (PlotEvent.pushMemMetadata m) (PlotEvent.flushSector m) i
        (by simp) (by simp) he
    · exact mem_take_append_of_mem_once
        [PlotEvent.mapSector m, PlotEvent.mapMetadata m, PlotEvent.acquirePermit,
         PlotEvent.getFarmerInfo, PlotEvent.plotSector m, PlotEvent.flushSector m,
         PlotEvent.flushMetadata m, PlotEvent.writeHeaderBytes (m + 1)]
        [PlotEvent.pushMemMetadata m, PlotEvent.emitSectorPlotted m]
        (PlotEvent.pushMemMetadata m) (PlotEvent.flushMetadata m) i
        (by simp) (by simp) he

/-- Across the whole plotting run, the header rewrite recording sector
`m` and the push of its in-memory record happen only at execution
points where the data and the metadata windows of sector `m` have
already been flushed. -/
theorem plottingEvents_flush_first (n : Nat) : ∀ start m i : Nat,
    (PlotEvent.writeHeaderBytes (m + 1) ∈ (plottingEvents start n).take i ∨
      PlotEvent.pushMemMetadata m ∈ (plottingEvents start n).take i) →
    PlotEvent.flushSector m ∈ (plottingEvents start n).take i ∧
      PlotEvent.flushMetadata m ∈ (plottingEvents start n).take i := by
  induction n with
  | zero => intro start m i h; simp [plottingEvents] at h
  | succ n ih =>
      intro start m i h
      simp only [plottingEvents] at h ⊢
      rw [List.take_append_eq_append_take] at h ⊢
      rcases h with he | he <;> rcases List.mem_append.mp he with h1 | h1
      · obtain ⟨hmk, hf1, hf2⟩ := plottingIteration_flush_first start m i (Or.inl h1)
        subst hmk
        exact ⟨List.mem_append_left _ hf1, List.mem_append_left _ hf2⟩
      · obtain ⟨hf1, hf2⟩ := ih (start + 1) m _ (Or.inl h1)
        exact ⟨List.mem_append_right _ hf1, List.mem_append_right _ hf2⟩
      · obtain ⟨hmk, hf1, hf2⟩ := plottingIteration_flush_first start m i (Or.inr h1)
        subst hmk
        exact ⟨List.mem_append_left _ hf1, List.mem_append_left _ hf2⟩
      · obtain ⟨hf1, hf2⟩ := ih (start + 1) m _ (Or.inr h1)
        exact ⟨List.mem_append_right _ hf1, List.mem_append_right _ hf2⟩

/-- Claim C3: the on-disk `sector_count` written by the plotting loop is
monotonically non-decreasing (the chain of header writes starting from
the initial count never decreases), and at any execution point of the
run, the header rewrite recording sector `m` and the push of the new
record onto the in-memory metadata vector happen only after both the
sector data window and the sector metadata window of sector `m` have
been flushed. -/
theorem c3_sector_count_durability (start n m i : Nat) :
    List.Chain' (· ≤ ·) (start :: headerWrites (plottingEvents start n)) ∧
    ((PlotEvent.writeHeaderBytes (m + 1) ∈ (plottingEvents start n).take i ∨
      PlotEvent.pushMemMetadata m ∈ (plottingEvents start n).take i) →
     PlotEvent.flushSector m ∈ (plottingEvents start n).take i ∧
       PlotEvent.flushMetadata m ∈ (plottingEvents start n).take i) :=
  ⟨headerWrites_chain n start, plottingEvents_flush_first n start m i⟩

/-- Witness for C3: in a one-sector run, the prefix that has just
rewritten the header already contains both flushes. -/
theorem c3_sector_count_durability_witness :
    PlotEvent.flushSector 0 ∈ (plottingEvents 0 1).take 8 ∧
    PlotEvent.flushMetadata 0 ∈ (plottingEvents 0 1).take 8 :=
  (c3_sector_count_durability 0 1 0 8).2 (Or.inl (by decide))

/-- Invariant of the slot forwarding system: the channel never holds
more than its capacity; everything queued, processed, submitted or
skipped has arrived; and a skipped slot is never queued, never being
processed and never submitted. -/
def FarmInv (s : FarmChanState) : Prop :=
  s.queued.length ≤ slotChannelCapacity 1 ∧
  s.queued ⊆ s.arrived ∧
  (∀ y, s.processing = some y → y ∈ s.arrived) ∧
  s.submitted ⊆ s.arrived ∧
  (∀ x ∈ s.skipped, x ∉ s.submitted ∧ x ∉ s.queued ∧ s.processing ≠ some x) ∧
  s.skipped ⊆ s.arrived

theorem farmStep_arrived (s : FarmChanState) (e : FarmEv) :
    (farmStep s e).arrived =
      match e with
      | .arrive slot => s.arrived ++ [slot]
      | _ => s.arrived := by
  cases e with
  | arrive slot =>
      by_cases hq : s.queued.length < slotChannelCapacity 1 <;> simp [farmStep, hq]
  | takeNext => cases hp : s.processing <;> cases hq : s.queued <;> simp [farmStep, hp, hq]
  | finish => cases hp : s.processing <;> simp [farmStep, hp]

theorem farmStep_inv (s : FarmChanState) (e : FarmEv) (hinv : FarmInv s)
    (hfresh : ∀ y, e = .arrive y → y ∉ s.arrived) : FarmInv (farmStep s e) := by
  obtain ⟨h1, h2, h3, h4, h5, h6⟩ := hinv
  cases e with
  | arrive slot =>
      have hy : slot ∉ s.arrived := hfresh slot rfl
      by_cases hq : s.queued.length < slotChannelCapacity 1
      · simp only [farmStep, if_pos hq]
        refine ⟨by simp; omega, ?_, ?_, ?_, ?_, ?_⟩
        · intro x hx
          rcases List.mem_append.mp hx with h | h
          · exact List.mem_append_left _ (h2 h)
          · exact List.mem_append_right _ h
        · intro y hyp
          exact List.mem_append_left _ (h3 y hyp)
        · intro x hx
          exact List.mem_append_left _ (h4 hx)
        · intro x hx
          refine ⟨(h5 x hx).1, ?_, (h5 x hx).2.2⟩
          intro hmem
          rcases List.mem_append.mp hmem with h | h
          · exact (h5 x hx).2.1 h
          · simp only [List.mem_singleton] at h
            subst h
            exact hy (h6 hx)
        · intro x hx
          exact List.mem_append_left _ (h6 hx)
      · simp only [farmStep, if_neg hq]
        refine ⟨h1, ?_, ?_, ?_, ?_, ?_⟩
        · intro x hx
          exact List.mem_append_left _ (h2 hx)
        · intro y hyp
          exact List.mem_append_left _ (h3 y hyp)
        · intro x hx
          exact List.mem_append_left _ (h4 hx)
        · intro x hx
          rcases List.mem_append.mp hx with h | h
          · exact ⟨(h5 x h).1, (h5 x h).2.1, (h5 x h).2.2⟩
          · simp only [List.mem_singleton] at h
            subst h
            refine ⟨fun hs => hy (h4 hs), fun hs => hy (h2 hs), fun hs => hy (h3 x hs)⟩
        · intro x hx
          rcases List.mem_append.mp hx with h | h
          · exact List.mem_append_left _ (h6 h)
          · exact List.mem_append_right _ h
  | takeNext =>
      cases hp : s.processing with
      | some y =>
          simp only [farmStep, hp]
          exact ⟨h1, h2, fun z hz => h3 z (hp ▸ hz), h4,
            fun x hx => ⟨(h5 x hx).1, (h5 x hx).2.1, hp ▸ (h5 x hx).2.2⟩, h6⟩
      | none =>
          cases hq : s.queued with
          | nil =>
              simp only [farmStep, hp, hq]
              exact ⟨h1, h2, h3, h4, h5, h6⟩
          | cons q rest =>
              simp only [farmStep, hp, hq]
              have hql : s.queued.length ≤ slotChannelCapacity 1 := h1
              refine ⟨?_, ?_, ?_, h4, ?_, h6⟩
              · rw [hq] at hql
                simp at hql ⊢
                omega
              · intro x hx
                exact h2 (by rw [hq]; exact List.mem_cons_of_mem _ hx)
              · intro z hz
                simp only [Option.some.injEq] at hz
                subst hz
                exact h2 (by rw [hq]; exact List.mem_cons_self _ _)
              · intro x hx
                have hnq : x ∉ s.queued := (h5 x hx).2.1
                rw [hq] at hnq
                simp only [List.mem_cons, not_or] at hnq
                exact ⟨(h5 x hx).1, hnq.2, by simpa using fun h => hnq.1 h.symm⟩
  | finish =>
      cases hp : s.processing with
      | none => simp only [farmStep, hp]; exact ⟨h1, h2, fun z hz => h3 z (hp ▸ hz), h4,
          fun x hx => ⟨(h5 x hx).1, (h5 x hx).2.1, hp ▸ (h5 x hx).2.2⟩, h6⟩
      | some y =>
          simp only [farmStep, hp]
          refine ⟨h1, h2, by simp, ?_, ?_, h6⟩
          · intro x hx
            rcases List.mem_append.mp hx with h | h
            · exact h4 h
            · simp only [List.mem_singleton] at h
              subst h
              exact h3 x hp
          · intro x hx
            have hne : y ≠ x := by
              intro hyx
              exact (h5 x hx).2.2 (by rw [hp, hyx])
            refine ⟨?_, (h5 x hx).2.1, by simp⟩
            intro hmem
            rcases List.mem_append.mp hmem with h | h
            · exact (h5 x hx).1 h
            · simp only [List.mem_singleton] at h
              exact hne h.symm

theorem runFarm_inv (es : List FarmEv) : ∀ s : FarmChanState, FarmInv s →
    (s.arrived ++ arrivalsOf es).Nodup → FarmInv (runFarm s es) := by
  induction es with
  | nil => intro s h _; exact h
  | cons e rest ih =>
      intro s hinv hnd
      apply ih (farmStep s e)
      · apply farmStep_inv s e hinv
        intro y hey
        subst hey
        rcases List.nodup_append.mp (by simpa [arrivalsOf] using hnd) with ⟨_, _, hdisj⟩
        intro hy
        exact hdisj hy (by simp)
      · rw [farmStep_arrived]
        cases e with
        | arrive y => simpa [arrivalsOf, List.append_assoc] using hnd
        | takeNext => simpa [arrivalsOf] using hnd
        | finish => simpa [arrivalsOf] using hnd

/-- Claim C6 counterexample: after slot `1` arrives and the worker takes
it, the worker is still processing slot `1` and the channel buffer is
empty; when slot `2` then arrives, `try_send` succeeds and slot `2` is
queued, not skipped — against the claim that a slot arriving while the
worker is still processing the previous one always fails to send.  The
channel is created with buffer `0` but, with its one sender, it still
buffers one message. -/
theorem c6_counterexample :
    (runFarm initialFarmState [.arrive 1, .takeNext]).processing = some 1 ∧
    (runFarm initialFarmState [.arrive 1, .takeNext]).queued = [] ∧
    runFarm initialFarmState [.arrive 1, .takeNext, .arrive 2] =
      { queued := [2], processing := some 1, skipped := [], submitted := [],
        arrived := [1, 2] } := by
  exact ⟨by decide, by decide, by decide⟩

/-- Claim C6 (amended): the slot forwarding channel is created with
buffer `0` and one sender, so it holds at most one queued `SlotInfo`;
an arriving slot is skipped (dropped, never queued) exactly when the
previously forwarded slot has not yet been picked up by the worker, and
no `SolutionResponse` is ever submitted for a skipped slot. -/
theorem c6_slot_channel (es : List FarmEv) (hnd : (arrivalsOf es).Nodup) :
    (runFarm initialFarmState es).queued.length ≤ slotChannelCapacity 1 ∧
    (∀ x ∈ (runFarm initialFarmState es).skipped,
      x ∉ (runFarm initialFarmState es).submitted ∧
      (runFarm initialFarmState es).processing ≠ some x) ∧
    (∀ (s : FarmChanState) (slot : Nat),
      slotChannelCapacity 1 ≤ s.queued.length →
      farmStep s (.arrive slot) =
        { s with skipped := s.skipped ++ [slot], arrived := s.arrived ++ [slot] }) ∧
    (∀ (s : FarmChanState) (slot : Nat),
      s.queued.length < slotChannelCapacity 1 →
      farmStep s (.arrive slot) =
        { s with queued := s.queued ++ [slot], arrived := s.arrived ++ [slot] }) := by
  have hinv0 : FarmInv initialFarmState := by
    refine ⟨by simp [initialFarmState], by simp [initialFarmState],
      by simp [initialFarmState], by simp [initialFarmState],
      by simp [initialFarmState], by simp [initialFarmState]⟩
  have hinv := runFarm_inv es initialFarmState hinv0
    (by simpa [initialFarmState] using hnd)
  obtain ⟨h1, h2, h3, h4, h5, h6⟩ := hinv
  refine ⟨h1, fun x hx => ⟨(h5 x hx).1, (h5 x hx).2.2⟩, ?_, ?_⟩
  · intro s slot hfull
    simp only [farmStep, if_neg (Nat.not_lt.mpr hfull)]
  · intro s slot hroom
    simp only [farmStep, if_pos hroom]

/-- Witness for the amended C6: slot 3 arrives while slot 2 is still
buffered, is skipped, and is never submitted. -/
theorem c6_slot_channel_witness :
    (runFarm initialFarmState
        [.arrive 1, .takeNext, .arrive 2, .arrive 3]).queued.length ≤
      slotChannelCapacity 1 ∧
    (3 : Nat) ∉ (runFarm initialFarmState
        [.arrive 1, .takeNext, .arrive 2, .arrive 3]).submitted :=
  ⟨(c6_slot_channel [.arrive 1, .takeNext, .arrive 2, .arrive 3] (by decide)).1,
   ((c6_slot_channel [.arrive 1, .takeNext, .arrive 2, .arrive 3] (by decide)).2.1
      3 (by decide)).1⟩
